import Mathlib

/-!
Shallow embedding of the space-authoring domain logic of the
`virtual2meet` backend (Express + Prisma routes in
`src/backend/src/routes/v1/user.ts` and the admin router), together with
theorems settling the frozen claims about it.

Conventions of the embedding:
* The Prisma store is a record of lists; `findFirst` / `findUnique` become
  `List.find?` on those lists (DB order = list order, inserts append).
* Schema validation (`safeParse`) happens upstream of the modelled logic,
  as the spec's §6 stipulates; operations receive already-validated data.
* Ids that Prisma would generate are passed in as explicit arguments.
* JavaScript quirks are preserved: `String.prototype.slice` clamping,
  `parseInt` digit-prefix parsing, and the fact that comparing a number
  against `undefined` (`x > space?.width!` when `space` is absent) is
  `false`, while `x < 0` is still evaluated.
-/

namespace V2M

/-- An `Element` catalog row (`element` table): sprite dimensions, the
static flag and an image reference. -/
structure ElementRec where
  id : String
  width : Int
  height : Int
  static : Bool
  imageUrl : String
deriving DecidableEq

/-- An `Avatar` catalog row (`avatar` table). -/
structure AvatarRec where
  id : String
  name : String
  imageUrl : String
deriving DecidableEq

/-- A `User` row, restricted to the fields the modelled routes touch:
the id and the optional avatar reference. -/
structure UserRec where
  id : String
  avatarId : Option String
deriving DecidableEq

/-- A `MapElement` row: one placement of the map template.  The admin
`POST /map` route always supplies `x` and `y`, so they are `Int` here. -/
structure MapElementRec where
  elementId : String
  x : Int
  y : Int
deriving DecidableEq

/-- A `Map` template row with its ordered placements. -/
structure MapRec where
  id : String
  name : String
  width : Int
  height : Int
  thumbnail : Option String
  mapElements : List MapElementRec
deriving DecidableEq

/-- A `Space` row. -/
structure SpaceRec where
  id : String
  name : String
  width : Int
  height : Int
  creatorId : String
  thumbnail : Option String
deriving DecidableEq

/-- A `spaceElements` row: one placed element inside a space. -/
structure SpaceElementRec where
  id : String
  spaceId : String
  elementId : String
  x : Int
  y : Int
deriving DecidableEq

/-- The persistent store: one list per Prisma model. -/
structure Store where
  users : List UserRec
  avatars : List AvatarRec
  elements : List ElementRec
  maps : List MapRec
  spaces : List SpaceRec
  spaceElements : List SpaceElementRec
deriving DecidableEq

/-! ### JavaScript string/number primitives used by the routes -/

/-- JavaScript `String.prototype.slice(start, stop)`: negative indices
count from the end, both bounds clamp into `[0, length]`, and an empty
string results when `start ≥ stop`. -/
def jsSlice (s : String) (start stop : Int) : String :=
  let len : Int := s.length
  let norm : Int → Int := fun i => if i < 0 then max (len + i) 0 else min i len
  let a := norm start
  let b := norm stop
  String.mk ((s.data.drop a.toNat).take (b - a).toNat)

/-- JavaScript `parseInt` (base 10): an optional sign followed by the
longest digit prefix; `none` models `NaN`. -/
def jsParseInt (s : String) : Option Int :=
  let step : List Char → Nat := fun cs =>
    (cs.takeWhile Char.isDigit).foldl (fun acc c => acc * 10 + (c.toNat - 48)) 0
  match s.data with
  | '-' :: rest =>
      if (rest.takeWhile Char.isDigit).isEmpty then none else some (-(step rest : Int))
  | '+' :: rest =>
      if (rest.takeWhile Char.isDigit).isEmpty then none else some (step rest : Int)
  | cs =>
      if (cs.takeWhile Char.isDigit).isEmpty then none else some (step cs : Int)

/-- JavaScript `String.prototype.split` with a one-character separator,
on the character list: an empty input yields one empty group, each
separator occurrence starts a new group. -/
def splitCharAux (sep : Char) : List Char → List (List Char)
  | [] => [[]]
  | c :: rest =>
      match splitCharAux sep rest with
      | [] => [[c]]
      | g :: gs => if c = sep then [] :: g :: gs else (c :: g) :: gs

/-- JavaScript `s.split(sep)` for a one-character `sep`. -/
def jsSplitChar (sep : Char) (s : String) : List String :=
  (splitCharAux sep s.data).map String.mk

/-- Source: `parseInt(dimensions.split("x")[0])` and `[1]`: split on `"x"`,
parse each half; `none` models a `NaN` width or height (which the store
would reject for an `Int` column). -/
def parseDimensions (s : String) : Option (Int × Int) :=
  let parts := jsSplitChar 'x' s
  match (parts.get? 0).bind jsParseInt, (parts.get? 1).bind jsParseInt with
  | some w, some h => some (w, h)
  | _, _ => none

/-! ### Bulk Identifier Normalizer (`GET /user/metadata/bulk`) -/

/-- Source: `const userIdString = (req.query.ids ?? "[]") as string;
    const userIds = userIdString.slice(1, userIdString.length - 1).split(",");` -/
def normalizeIds (idsParam : Option String) : List String :=
  let userIdString := idsParam.getD "[]"
  jsSplitChar ',' (jsSlice userIdString 1 ((userIdString.length : Int) - 1))

/-- Route `GET /user/metadata/bulk`: the route is mounted without
`userMiddleware` and never reads `req.userId`, so the `caller` argument
(the identity an authentication layer would attach) is ignored.  Returns
the `(userId, avatar?.imageUrl)` pairs for users whose id is in the
normalized list, in store order. -/
def getBulkUserMetadata (st : Store) (idsParam : Option String)
    (caller : Option String) : List (String × Option String) :=
  let userIds := normalizeIds idsParam
  (st.users.filter (fun u => userIds.contains u.id)).map
    (fun u => (u.id, (u.avatarId.bind (fun aid => st.avatars.find? (fun a => a.id == aid))).map
      (fun a => a.imageUrl)))

/-! ### Space creation (`POST /space`) -/

inductive CreateSpaceResult where
  | created (spaceId : String)
  | mapNotFound
  | invalidDimensions
deriving DecidableEq

/-- The `SpaceElement` rows that `createMany` inserts when instantiating
a map: one per `MapElement`, preserving `elementId`, `x`, `y` and tagged
with the new space's id.  `elemIds` supplies the generated row ids. -/
def instantiatedElements (m : MapRec) (newSpaceId : String)
    (elemIds : List String) : List SpaceElementRec :=
  List.zipWith (fun i (e : MapElementRec) =>
    ⟨i, newSpaceId, e.elementId, e.x, e.y⟩) elemIds m.mapElements

/-- Route `POST /space`.  Without a `mapId`: create an empty space at the
parsed dimensions.  With a `mapId`: look the map up; if absent answer
`Map not found`; otherwise, in one transaction, create the space with
the map's width/height and bulk-insert one `SpaceElement` per
`MapElement`. -/
def createSpace (st : Store) (name dimensions : String) (mapId : Option String)
    (creatorId newSpaceId : String) (elemIds : List String) :
    CreateSpaceResult × Store :=
  match mapId with
  | none =>
      match parseDimensions dimensions with
      | none => (.invalidDimensions, st)
      | some (w, h) =>
          (.created newSpaceId,
           { st with spaces := st.spaces ++ [⟨newSpaceId, name, w, h, creatorId, none⟩] })
  | some mid =>
      match st.maps.find? (fun m => m.id == mid) with
      | none => (.mapNotFound, st)
      | some m =>
          (.created newSpaceId,
           { st with
              spaces := st.spaces ++ [⟨newSpaceId, name, m.width, m.height, creatorId, none⟩],
              spaceElements := st.spaceElements ++ instantiatedElements m newSpaceId elemIds })

/-! ### Adding an element to a space (`POST /space/element`) -/

inductive AddElementResult where
  | ok
  | outOfBounds
  | spaceNotFound
deriving DecidableEq

/-- The boundary condition the route tests, in source order:
`req.body.x < 0 || req.body.y < 0 || req.body.x > space?.width! || req.body.y > space?.height!`.
When the space lookup returned nothing, `space?.width!` is `undefined`
and a `>` comparison against it is `false`, so only the sign checks
remain. -/
def oobCond : Option SpaceRec → Int → Int → Prop
  | none, x, y => x < 0 ∨ y < 0
  | some sp, x, y => x < 0 ∨ y < 0 ∨ x > sp.width ∨ y > sp.height

instance (o : Option SpaceRec) (x y : Int) : Decidable (oobCond o x y) :=
  match o with
  | none => inferInstanceAs (Decidable (x < 0 ∨ y < 0))
  | some sp => inferInstanceAs (Decidable (x < 0 ∨ y < 0 ∨ x > sp.width ∨ y > sp.height))

/-- Route `POST /space/element`: look the space up scoped by
`id + creatorId = actor`, test the boundary condition (before the
existence check, as the source does), then report `Space not found`, and
otherwise insert the new `SpaceElement`. -/
def addSpaceElement (st : Store) (actorId spaceId elementId : String)
    (x y : Int) (newId : String) : AddElementResult × Store :=
  let space? := st.spaces.find? (fun s => s.id == spaceId && s.creatorId == actorId)
  if oobCond space? x y then
    (.outOfBounds, st)
  else
    match space? with
    | none => (.spaceNotFound, st)
    | some _ =>
        (.ok, { st with spaceElements := st.spaceElements ++ [⟨newId, spaceId, elementId, x, y⟩] })

/-! ### Reading a space (`GET /space/:spaceId`) -/

structure GetSpaceElementOut where
  id : String
  element : Option ElementRec
  x : Int
  y : Int
deriving DecidableEq

structure GetSpaceOut where
  dimensions : String
  elements : List GetSpaceElementOut
deriving DecidableEq

/-- Route `GET /space/:spaceId`: public read (no auth middleware consulted for
ownership).  Returns `none` for `Space not found`, otherwise the
`"WxH"` dimension string and every `SpaceElement` of the space joined
with its `Element` definition. -/
def getSpace (st : Store) (spaceId : String) : Option GetSpaceOut :=
  match st.spaces.find? (fun s => s.id == spaceId) with
  | none => none
  | some sp =>
      some { dimensions := toString sp.width ++ "x" ++ toString sp.height,
             elements := (st.spaceElements.filter (fun e => e.spaceId == spaceId)).map
               (fun e => ⟨e.id, st.elements.find? (fun d => d.id == e.elementId), e.x, e.y⟩) }

/-! ### Deleting a space (`DELETE /space/:spaceId`) -/

inductive DeleteSpaceResult where
  | ok
  | notFound
  | unauthorized
deriving DecidableEq

/-- Route `DELETE /space/:spaceId`: find the space by id alone; `Space not
found` if absent; `Unauthorized` if the creator is not the actor;
otherwise delete it (its `SpaceElements` go with it by the store's
referential cascade, per spec §4.5). -/
def deleteSpace (st : Store) (actorId spaceId : String) :
    DeleteSpaceResult × Store :=
  match st.spaces.find? (fun s => s.id == spaceId) with
  | none => (.notFound, st)
  | some sp =>
      if sp.creatorId = actorId then
        (.ok, { st with
                  spaces := st.spaces.filter (fun s => !(s.id == spaceId)),
                  spaceElements := st.spaceElements.filter (fun e => !(e.spaceId == spaceId)) })
      else (.unauthorized, st)

/-- Repeating `DELETE /space/:spaceId` `n` times, keeping only the store. -/
def deleteSpaceIter (actorId spaceId : String) : Nat → Store → Store
  | 0, st => st
  | n + 1, st => (deleteSpace (deleteSpaceIter actorId spaceId n st) actorId spaceId).2

/-! ### Deleting a space element (`DELETE /space/element`) -/

inductive DeleteElementResult where
  | ok
  | unauthorized
  | internalError
deriving DecidableEq

/-- Route `DELETE /space/element`: find the `SpaceElement` with its parent
space.  The guard is
`if (!spaceElement?.space.creatorId || spaceElement.space.creatorId !== req.userId)`,
so a missing element — and also an empty (falsy) `creatorId` — answers
`Unauthorized`; a found element whose space row is missing would throw
(`internalError`, surfaced as a 500 by the error middleware). -/
def deleteSpaceElement (st : Store) (actorId spaceElementId : String) :
    DeleteElementResult × Store :=
  match st.spaceElements.find? (fun e => e.id == spaceElementId) with
  | none => (.unauthorized, st)
  | some el =>
      match st.spaces.find? (fun s => s.id == el.spaceId) with
      | none => (.internalError, st)
      | some sp =>
          if sp.creatorId = "" ∨ sp.creatorId ≠ actorId then
            (.unauthorized, st)
          else
            (.ok, { st with
                      spaceElements := st.spaceElements.filter (fun e => !(e.id == spaceElementId)) })

/-! ### Admin routes (`POST /admin/map`, `PUT /admin/element/:elementId`) -/

inductive CreateMapResult where
  | created (mapId : String)
  | invalidDimensions
deriving DecidableEq

/-- Route `POST /admin/map`: parse the `"WxH"` dimension string and create the
map with its `defaultElements` copied verbatim — no boundary validation
is performed on the placements. -/
def createMap (st : Store) (name dimensions : String) (thumbnail : Option String)
    (defaultElements : List MapElementRec) (newMapId : String) :
    CreateMapResult × Store :=
  match parseDimensions dimensions with
  | none => (.invalidDimensions, st)
  | some (w, h) =>
      (.created newMapId,
       { st with maps := st.maps ++ [⟨newMapId, name, w, h, thumbnail, defaultElements⟩] })

inductive UpdateElementResult where
  | ack
deriving DecidableEq

/-- Route `PUT /admin/element/:elementId`: the handler is not `async` and does
not await `client.element.update(...)` before responding — a Prisma
query promise that is never awaited is never executed — so at the moment
the acknowledgment is sent the store is unchanged.  The embedding
returns the state as observed at acknowledgment time. -/
def updateElement (st : Store) (elementId imageUrl : String) :
    UpdateElementResult × Store :=
  let _ := (elementId, imageUrl)
  (.ack, st)

/-! ### Derived notions used by the claims -/

/-- The spec's placement invariant for a `SpaceElement` against its
owning space: `0 ≤ x ≤ width ∧ 0 ≤ y ≤ height`. -/
def elemInBounds (sp : SpaceRec) (e : SpaceElementRec) : Prop :=
  0 ≤ e.x ∧ e.x ≤ sp.width ∧ 0 ≤ e.y ∧ e.y ≤ sp.height

instance (sp : SpaceRec) (e : SpaceElementRec) : Decidable (elemInBounds sp e) :=
  inferInstanceAs (Decidable (_ ∧ _ ∧ _ ∧ _))

/-- The empty store. -/
def emptyStore : Store := ⟨[], [], [], [], [], []⟩

/-! ### Concrete stores used by witnesses and counterexamples -/

/-- A store holding one map template with three placements. -/
def stMapOnly : Store :=
  ⟨[], [], [], [⟨"m1", "m", 4, 7, none, [⟨"e1", 1, 2⟩, ⟨"e2", 3, 4⟩, ⟨"e3", 0, 0⟩]⟩], [], []⟩

/-- A store holding one 10×10 space owned by `u1`. -/
def stOneSpace : Store := ⟨[], [], [], [], [⟨"sp1", "s", 10, 10, "u1", none⟩], []⟩

/-- A store holding one 10×10 space owned by `u1` with one placed element. -/
def stSpaceWithElem : Store :=
  ⟨[], [], [], [], [⟨"sp1", "s", 10, 10, "u1", none⟩], [⟨"se1", "sp1", "e1", 1, 1⟩]⟩

/-- A store holding one 10×10 space owned by `alice`. -/
def stAlice : Store := ⟨[], [], [], [], [⟨"sp9", "s", 10, 10, "alice", none⟩], []⟩

/-- A store holding one element whose image is `old.png`. -/
def stOldImage : Store := ⟨[], [], [⟨"e1", 1, 1, false, "old.png"⟩], [], [], []⟩

/-! ### Helper lemmas -/

theorem mem_zipWith_spaceElement (nsid : String) :
    ∀ (ids : List String) (mes : List MapElementRec) (e : SpaceElementRec),
      e ∈ List.zipWith (fun i (me : MapElementRec) =>
        (⟨i, nsid, me.elementId, me.x, me.y⟩ : SpaceElementRec)) ids mes →
      e.spaceId = nsid ∧ ∃ me ∈ mes, e.x = me.x ∧ e.y = me.y
  | [], _, e, h => by simp at h
  | _ :: _, [], e, h => by simp at h
  | i :: ids, me :: mes, e, h => by
      rw [List.zipWith_cons_cons] at h
      rcases List.mem_cons.1 h with he | he
      · subst he
        exact ⟨rfl, me, List.mem_cons_self _ _, rfl, rfl⟩
      · obtain ⟨h1, me', hme', hx, hy⟩ := mem_zipWith_spaceElement nsid ids mes e he
        exact ⟨h1, me', List.mem_cons_of_mem _ hme', hx, hy⟩

theorem zipWith_spaceElement_key (nsid : String) :
    ∀ (ids : List String) (mes : List MapElementRec), ids.length = mes.length →
      (List.zipWith (fun i (me : MapElementRec) =>
        (⟨i, nsid, me.elementId, me.x, me.y⟩ : SpaceElementRec)) ids mes).map
          (fun e => (e.elementId, e.x, e.y)) =
      mes.map (fun me => (me.elementId, me.x, me.y))
  | [], [], _ => rfl
  | [], _ :: _, h => by simp at h
  | _ :: _, [], h => by simp at h
  | _ :: ids, me :: mes, h => by
      rw [List.zipWith_cons_cons, List.map_cons, List.map_cons]
      exact congrArg (List.cons (me.elementId, me.x, me.y))
        (zipWith_spaceElement_key nsid ids mes (by simpa using h))

theorem jsSlice_strip (s : String) :
    jsSlice s 1 ((s.length : Int) - 1) = String.mk ((s.data.drop 1).dropLast) := by
  simp only [jsSlice]
  congr 1
  rw [List.dropLast_eq_take, List.length_drop]
  have hlen : s.length = s.data.length := rfl
  rcases Nat.eq_zero_or_pos s.data.length with h0 | hpos
  · have hnil : s.data = [] := List.length_eq_zero.mp h0
    rw [hnil]
    simp
  · have hne : ¬ ((1 : Int) < 0) := by norm_num
    rw [if_neg hne]
    have hb : ¬ ((s.length : Int) - 1 < 0) := by rw [hlen]; omega
    rw [if_neg hb]
    have hmin1 : min (1 : Int) (s.length : Int) = 1 := by rw [hlen]; omega
    have hminb : min ((s.length : Int) - 1) (s.length : Int) = (s.length : Int) - 1 := by
      rw [hlen]; omega
    rw [hmin1, hminb]
    have h2 : ((s.length : Int) - 1 - 1).toNat = s.data.length - 1 - 1 := by rw [hlen]; omega
    rw [h2]
    rfl

/-! ### Claims -/

/-- C4: on a `spaceId` that resolves to no owned space, the boundary
check still runs first against the absent row (matching the source's
`x > space?.width!` on an undefined `space`), so a negative coordinate is
answered `outOfBounds`, not `spaceNotFound`; only non-negative
coordinates reach the `Space not found` answer.  Nothing is persisted in
either case. -/
theorem addSpaceElement_missing_space_behavior :
    addSpaceElement emptyStore "u1" "ghost" "e1" (-1) 0 "se9" = (.outOfBounds, emptyStore) ∧
    addSpaceElement emptyStore "u1" "ghost" "e1" 3 4 "se9" = (.spaceNotFound, emptyStore) := by
  decide

/-- C7: `createSpace` with a `mapId` that resolves to no map answers
`mapNotFound` and leaves the store unchanged — no space and no space
element is created. -/
theorem createSpace_mapNotFound (st : Store) (name dims mapId creatorId newSpaceId : String)
    (elemIds : List String)
    (hm : st.maps.find? (fun m => m.id == mapId) = none) :
    createSpace st name dims (some mapId) creatorId newSpaceId elemIds = (.mapNotFound, st) := by
  simp [createSpace, hm]

theorem createSpace_mapNotFound_witness :
    emptyStore.maps.find? (fun m => m.id == "nope") = none ∧
    createSpace emptyStore "s" "800x600" (some "nope") "u1" "sp1" [] = (.mapNotFound, emptyStore) :=
  ⟨rfl, createSpace_mapNotFound emptyStore "s" "800x600" "nope" "u1" "sp1" [] rfl⟩

/-- C8: the bulk identifier normalizer removes exactly the first and the
last character of the raw string and splits the remainder on `","`; in
particular `"[id1,id2,id3]"` yields `id1, id2, id3` in order, and the
empty list `"[]"` — also the default when the parameter is absent —
yields exactly one empty string. -/
theorem normalizeIds_correct :
    (∀ s : String, normalizeIds (some s) =
      jsSplitChar ',' (String.mk ((s.data.drop 1).dropLast))) ∧
    normalizeIds (some "[id1,id2,id3]") = ["id1", "id2", "id3"] ∧
    normalizeIds (some "[]") = [""] ∧
    normalizeIds none = [""] := by
  refine ⟨fun s => ?_, by decide, by decide, by decide⟩
  simp only [normalizeIds, Option.getD_some]
  rw [jsSlice_strip]

/-- C9: the update-element route acknowledges without awaiting the store
write: on a store holding element `e1` with image `old.png`,
`updateElement` returns its ack while the persisted image is still
`old.png`, not the requested `new.png`. -/
theorem updateElement_ack_without_persist :
    updateElement stOldImage "e1" "new.png" = (.ack, stOldImage) ∧
    ((updateElement stOldImage "e1" "new.png").2.elements.find?
        (fun e => e.id == "e1")).map (fun e => e.imageUrl) = some "old.png" := by
  decide

/-- C1: creating a space from a map with `N` placements yields a space
with the map's width and height holding exactly `N` space elements, each
preserving one source map element's `(elementId, x, y)` and tagged with
the new space's id. -/
theorem createSpace_from_map_correct
    (st : Store) (name dims mapId creatorId newSpaceId : String)
    (elemIds : List String) (m : MapRec)
    (hm : st.maps.find? (fun mm => mm.id == mapId) = some m)
    (hlen : elemIds.length = m.mapElements.length)
    (hfresh : ∀ e ∈ st.spaceElements, e.spaceId ≠ newSpaceId) :
    (createSpace st name dims (some mapId) creatorId newSpaceId elemIds).1 =
      .created newSpaceId ∧
    (⟨newSpaceId, name, m.width, m.height, creatorId, none⟩ : SpaceRec) ∈
      (createSpace st name dims (some mapId) creatorId newSpaceId elemIds).2.spaces ∧
    ((createSpace st name dims (some mapId) creatorId newSpaceId elemIds).2.spaceElements.filter
        (fun e => e.spaceId == newSpaceId)).length = m.mapElements.length ∧
    ((createSpace st name dims (some mapId) creatorId newSpaceId elemIds).2.spaceElements.filter
        (fun e => e.spaceId == newSpaceId)).map (fun e => (e.elementId, e.x, e.y)) =
      m.mapElements.map (fun me => (me.elementId, me.x, me.y)) := by
  have hfilter :
      (st.spaceElements ++ instantiatedElements m newSpaceId elemIds).filter
        (fun e => e.spaceId == newSpaceId) = instantiatedElements m newSpaceId elemIds := by
    rw [List.filter_append]
    have h1 : st.spaceElements.filter (fun e => e.spaceId == newSpaceId) = [] :=
      List.filter_eq_nil_iff.2 (fun e he => by simpa using hfresh e he)
    have h2 : (instantiatedElements m newSpaceId elemIds).filter
        (fun e => e.spaceId == newSpaceId) = instantiatedElements m newSpaceId elemIds :=
      List.filter_eq_self.2 (fun e he => by
        have := (mem_zipWith_spaceElement newSpaceId elemIds m.mapElements e
          (by simpa [instantiatedElements] using he)).1
        simp [this])
    rw [h1, h2, List.nil_append]
  simp only [createSpace, hm]
  refine ⟨by trivial, ?_, ?_, ?_⟩
  · simp
  · rw [hfilter]
    simp [instantiatedElements, List.length_zipWith, hlen]
  · rw [hfilter]
    simpa [instantiatedElements] using
      zipWith_spaceElement_key newSpaceId elemIds m.mapElements hlen

theorem createSpace_from_map_correct_witness :
    stMapOnly.maps.find? (fun mm => mm.id == "m1") =
      some ⟨"m1", "m", 4, 7, none, [⟨"e1", 1, 2⟩, ⟨"e2", 3, 4⟩, ⟨"e3", 0, 0⟩]⟩ ∧
    ((createSpace stMapOnly "s" "" (some "m1") "u2" "sp1" ["a", "b", "c"]).1 =
        .created "sp1" ∧
      (⟨"sp1", "s", 4, 7, "u2", none⟩ : SpaceRec) ∈
        (createSpace stMapOnly "s" "" (some "m1") "u2" "sp1" ["a", "b", "c"]).2.spaces ∧
      ((createSpace stMapOnly "s" "" (some "m1") "u2" "sp1" ["a", "b", "c"]).2.spaceElements.filter
          (fun e => e.spaceId == "sp1")).length = 3 ∧
      ((createSpace stMapOnly "s" "" (some "m1") "u2" "sp1" ["a", "b", "c"]).2.spaceElements.filter
          (fun e => e.spaceId == "sp1")).map (fun e => (e.elementId, e.x, e.y)) =
        [("e1", 1, 2), ("e2", 3, 4), ("e3", 0, 0)]) :=
  ⟨by decide,
   createSpace_from_map_correct stMapOnly "s" "" "m1" "u2" "sp1" ["a", "b", "c"]
     ⟨"m1", "m", 4, 7, none, [⟨"e1", 1, 2⟩, ⟨"e2", 3, 4⟩, ⟨"e3", 0, 0⟩]⟩
     (by decide) (by decide) (by decide)⟩

/-- C2: for an existing space owned by the acting user, `addSpaceElement`
answers `outOfBounds` with an unchanged store exactly when
`x < 0 ∨ y < 0 ∨ x > width ∨ y > height` (the boundary itself is
accepted); otherwise it succeeds and a subsequent `getSpace` lists the
new element at `(x, y)`. -/
theorem addSpaceElement_bounds (st : Store) (actorId spaceId elementId : String)
    (x y : Int) (newId : String) (sp : SpaceRec)
    (hsp : st.spaces.find? (fun s => s.id == spaceId && s.creatorId == actorId) = some sp) :
    (addSpaceElement st actorId spaceId elementId x y newId = (.outOfBounds, st) ↔
      (x < 0 ∨ y < 0 ∨ x > sp.width ∨ y > sp.height)) ∧
    (¬ (x < 0 ∨ y < 0 ∨ x > sp.width ∨ y > sp.height) →
      (addSpaceElement st actorId spaceId elementId x y newId).1 = .ok ∧
      ∃ out, getSpace (addSpaceElement st actorId spaceId elementId x y newId).2 spaceId =
          some out ∧
        ∃ en ∈ out.elements, en.id = newId ∧ en.x = x ∧ en.y = y) := by
  by_cases h : x < 0 ∨ y < 0 ∨ x > sp.width ∨ y > sp.height
  · have hoob : oobCond (some sp) x y := by simpa [oobCond] using h
    have hadd : addSpaceElement st actorId spaceId elementId x y newId = (.outOfBounds, st) := by
      simp only [addSpaceElement, hsp]
      rw [if_pos hoob]
    exact ⟨⟨fun _ => h, fun _ => hadd⟩, fun hc => absurd h hc⟩
  · have hnoob : ¬ oobCond (some sp) x y := by simpa [oobCond] using h
    have hadd : addSpaceElement st actorId spaceId elementId x y newId =
        (.ok, { st with
                  spaceElements := st.spaceElements ++ [⟨newId, spaceId, elementId, x, y⟩] }) := by
      simp only [addSpaceElement, hsp]
      rw [if_neg hnoob]
    refine ⟨⟨fun heq => ?_, fun hh => absurd hh h⟩, fun _ => ⟨by rw [hadd], ?_⟩⟩
    · rw [hadd] at heq
      exact absurd (congrArg Prod.fst heq) (by simp)
    · have hmem : sp ∈ st.spaces := List.mem_of_find?_eq_some hsp
      have hpred := List.find?_some hsp
      have hid : (sp.id == spaceId) = true := by
        have h' : (sp.id == spaceId && sp.creatorId == actorId) = true := hpred
        rw [Bool.and_eq_true] at h'
        exact h'.1
      have hsome : (st.spaces.find? (fun s => s.id == spaceId)).isSome :=
        List.find?_isSome.2 ⟨sp, hmem, hid⟩
      obtain ⟨sp2, hsp2⟩ := Option.isSome_iff_exists.mp hsome
      have hget : getSpace ((addSpaceElement st actorId spaceId elementId x y newId).2) spaceId =
          some (⟨toString sp2.width ++ "x" ++ toString sp2.height,
                ((st.spaceElements ++ [(⟨newId, spaceId, elementId, x, y⟩ : SpaceElementRec)]).filter
                    (fun e => e.spaceId == spaceId)).map
                  (fun e => ⟨e.id, st.elements.find? (fun d => d.id == e.elementId),
                    e.x, e.y⟩)⟩ : GetSpaceOut) := by
        rw [hadd]
        simp only [getSpace]
        rw [hsp2]
      refine ⟨_, hget, ?_⟩
      have hmemEl : (⟨newId, spaceId, elementId, x, y⟩ : SpaceElementRec) ∈
          (st.spaceElements ++ [(⟨newId, spaceId, elementId, x, y⟩ : SpaceElementRec)]).filter
            (fun e => e.spaceId == spaceId) := by
        refine List.mem_filter.2 ⟨List.mem_append_right _ (List.mem_singleton_self _), by simp⟩
      exact ⟨⟨newId, st.elements.find? (fun d => d.id == elementId), x, y⟩,
        List.mem_map_of_mem _ hmemEl, rfl, rfl, rfl⟩

theorem addSpaceElement_bounds_witness :
    stOneSpace.spaces.find? (fun s => s.id == "sp1" && s.creatorId == "u1") =
      some ⟨"sp1", "s", 10, 10, "u1", none⟩ ∧
    ((addSpaceElement stOneSpace "u1" "sp1" "e1" 3 4 "se1" = (.outOfBounds, stOneSpace) ↔
        ((3 : Int) < 0 ∨ (4 : Int) < 0 ∨ (3 : Int) > 10 ∨ (4 : Int) > 10)) ∧
      (¬ ((3 : Int) < 0 ∨ (4 : Int) < 0 ∨ (3 : Int) > 10 ∨ (4 : Int) > 10) →
        (addSpaceElement stOneSpace "u1" "sp1" "e1" 3 4 "se1").1 = .ok ∧
        ∃ out, getSpace (addSpaceElement stOneSpace "u1" "sp1" "e1" 3 4 "se1").2 "sp1" =
            some out ∧
          ∃ en ∈ out.elements, en.id = "se1" ∧ en.x = 3 ∧ en.y = 4)) :=
  ⟨by decide,
   addSpaceElement_bounds stOneSpace "u1" "sp1" "e1" 3 4 "se1"
     ⟨"sp1", "s", 10, 10, "u1", none⟩ (by decide)⟩

/-- C3 (counterexample): map creation performs no boundary validation,
so instantiating a map whose placement lies outside its own 2×2 canvas
creates a space element at `(5, 3)` violating the placement invariant of
its owning space. -/
theorem spaceElement_bounds_invariant_cex :
    (⟨"sp1", "s", 2, 2, "u1", none⟩ : SpaceRec) ∈
      (createSpace (createMap emptyStore "m" "2x2" none [⟨"e1", 5, 3⟩] "m1").2
        "s" "" (some "m1") "u1" "sp1" ["se1"]).2.spaces ∧
    (⟨"se1", "sp1", "e1", 5, 3⟩ : SpaceElementRec) ∈
      (createSpace (createMap emptyStore "m" "2x2" none [⟨"e1", 5, 3⟩] "m1").2
        "s" "" (some "m1") "u1" "sp1" ["se1"]).2.spaceElements ∧
    ¬ elemInBounds ⟨"sp1", "s", 2, 2, "u1", none⟩ ⟨"se1", "sp1", "e1", 5, 3⟩ := by
  decide

/-- C3 (amended): a space element created through `addSpaceElement`
always satisfies `0 ≤ x ≤ width ∧ 0 ≤ y ≤ height` for its owning space;
a space element created through template instantiation copies the map's
coordinates verbatim, so it satisfies the invariant exactly when the
source map's placements already lie within the map's dimensions (which
nothing validates at map creation). -/
theorem spaceElement_bounds_amended :
    (∀ (st : Store) (actorId spaceId elementId : String) (x y : Int) (newId : String)
        (st' : Store),
        addSpaceElement st actorId spaceId elementId x y newId = (.ok, st') →
        ∃ sp, st.spaces.find? (fun s => s.id == spaceId && s.creatorId == actorId) = some sp ∧
          elemInBounds sp ⟨newId, spaceId, elementId, x, y⟩) ∧
    (∀ (m : MapRec) (newSpaceId : String) (elemIds : List String) (sp : SpaceRec),
        sp.width = m.width → sp.height = m.height →
        (∀ me ∈ m.mapElements, 0 ≤ me.x ∧ me.x ≤ m.width ∧ 0 ≤ me.y ∧ me.y ≤ m.height) →
        ∀ e ∈ instantiatedElements m newSpaceId elemIds, elemInBounds sp e) := by
  constructor
  · intro st actorId spaceId elementId x y newId st' hok
    simp only [addSpaceElement] at hok
    cases hf : st.spaces.find? (fun s => s.id == spaceId && s.creatorId == actorId) with
    | none =>
        rw [hf] at hok
        by_cases hc : oobCond none x y
        · rw [if_pos hc] at hok
          exact absurd (congrArg Prod.fst hok) (by simp)
        · rw [if_neg hc] at hok
          exact absurd (congrArg Prod.fst hok) (by simp)
    | some sp =>
        rw [hf] at hok
        by_cases hc : oobCond (some sp) x y
        · rw [if_pos hc] at hok
          exact absurd (congrArg Prod.fst hok) (by simp)
        · rw [if_neg hc] at hok
          refine ⟨sp, rfl, ?_⟩
          simp only [oobCond] at hc
          push_neg at hc
          exact ⟨hc.1, hc.2.2.1, hc.2.1, hc.2.2.2⟩
  · intro m newSpaceId elemIds sp hw hh hbnd e he
    obtain ⟨hsid, me, hme, hx, hy⟩ :=
      mem_zipWith_spaceElement newSpaceId elemIds m.mapElements e
        (by simpa [instantiatedElements] using he)
    obtain ⟨h1, h2, h3, h4⟩ := hbnd me hme
    exact ⟨by rw [hx]; exact h1, by rw [hx, hw]; exact h2,
           by rw [hy]; exact h3, by rw [hy, hh]; exact h4⟩

theorem spaceElement_bounds_amended_witness :
    (∃ sp, stOneSpace.spaces.find? (fun s => s.id == "sp1" && s.creatorId == "u1") = some sp ∧
       elemInBounds sp ⟨"se9", "sp1", "e1", 3, 4⟩) ∧
    (∀ e ∈ instantiatedElements ⟨"m1", "m", 4, 7, none, [⟨"e1", 1, 2⟩]⟩ "spX" ["k"],
       elemInBounds ⟨"spX", "s", 4, 7, "u9", none⟩ e) :=
  ⟨spaceElement_bounds_amended.1 stOneSpace "u1" "sp1" "e1" 3 4 "se9"
     { stOneSpace with
        spaceElements := stOneSpace.spaceElements ++ [⟨"se9", "sp1", "e1", 3, 4⟩] }
     (by decide),
   spaceElement_bounds_amended.2 ⟨"m1", "m", 4, 7, none, [⟨"e1", 1, 2⟩]⟩ "spX" ["k"]
     ⟨"spX", "s", 4, 7, "u9", none⟩ rfl rfl (by decide)⟩

/-- C5 (counterexample): deleting the same space element twice yields
success and then `unauthorized` — the route folds the missing element
into its authorization guard, so the repeat does not surface a distinct
not-found failure. -/
theorem deleteSpaceElement_twice_cex :
    (deleteSpaceElement stSpaceWithElem "u1" "se1").1 = .ok ∧
    deleteSpaceElement (deleteSpaceElement stSpaceWithElem "u1" "se1").2 "u1" "se1" =
      (.unauthorized, (deleteSpaceElement stSpaceWithElem "u1" "se1").2) := by
  decide

/-- C5 (amended): deleting the same space element twice (by the owner)
yields success for the first call and `unauthorized` — not a distinct
not-found failure — for the second, never a second successful delete;
the second call leaves the store unchanged. -/
theorem deleteSpaceElement_twice_amended (st : Store) (actorId spaceElementId : String)
    (el : SpaceElementRec) (sp : SpaceRec)
    (hel : st.spaceElements.find? (fun e => e.id == spaceElementId) = some el)
    (hsp : st.spaces.find? (fun s => s.id == el.spaceId) = some sp)
    (hauth : sp.creatorId = actorId) (hne : sp.creatorId ≠ "") :
    (deleteSpaceElement st actorId spaceElementId).1 = .ok ∧
    deleteSpaceElement (deleteSpaceElement st actorId spaceElementId).2 actorId spaceElementId =
      (.unauthorized, (deleteSpaceElement st actorId spaceElementId).2) := by
  have hcond : ¬ (sp.creatorId = "" ∨ sp.creatorId ≠ actorId) := by
    push_neg
    exact ⟨hne, hauth⟩
  have hdel : deleteSpaceElement st actorId spaceElementId =
      (.ok, { st with spaceElements :=
          st.spaceElements.filter (fun e => !(e.id == spaceElementId)) }) := by
    simp only [deleteSpaceElement, hel, hsp]
    rw [if_neg hcond]
  have hnone : (st.spaceElements.filter (fun e => !(e.id == spaceElementId))).find?
      (fun e => e.id == spaceElementId) = none := by
    apply List.find?_eq_none.2
    intro e he
    have hq := (List.mem_filter.1 he).2
    simp only [Bool.not_eq_true'] at hq
    simp [hq]
  constructor
  · rw [hdel]
  · rw [hdel]
    simp only [deleteSpaceElement, hnone]

theorem deleteSpaceElement_twice_amended_witness :
    stSpaceWithElem.spaceElements.find? (fun e => e.id == "se1") =
      some ⟨"se1", "sp1", "e1", 1, 1⟩ ∧
    ((deleteSpaceElement stSpaceWithElem "u1" "se1").1 = .ok ∧
      deleteSpaceElement (deleteSpaceElement stSpaceWithElem "u1" "se1").2 "u1" "se1" =
        (.unauthorized, (deleteSpaceElement stSpaceWithElem "u1" "se1").2)) :=
  ⟨by decide,
   deleteSpaceElement_twice_amended stSpaceWithElem "u1" "se1" ⟨"se1", "sp1", "e1", 1, 1⟩
     ⟨"sp1", "s", 10, 10, "u1", none⟩ (by decide) (by decide) (by decide) (by decide)⟩

/-- C6: an actor other than the creator deleting a space always gets
`unauthorized` with the store — the space and its elements — untouched,
no matter how many times the request is repeated. -/
theorem deleteSpace_unauthorized_immutable (st : Store) (spaceId actorB : String)
    (sp : SpaceRec)
    (hsp : st.spaces.find? (fun s => s.id == spaceId) = some sp)
    (hne : sp.creatorId ≠ actorB) :
    deleteSpace st actorB spaceId = (.unauthorized, st) ∧
    ∀ n : Nat, deleteSpaceIter actorB spaceId n st = st := by
  have h1 : deleteSpace st actorB spaceId = (.unauthorized, st) := by
    simp only [deleteSpace, hsp]
    rw [if_neg hne]
  refine ⟨h1, ?_⟩
  intro n
  induction n with
  | zero => rfl
  | succ n ih =>
      simp only [deleteSpaceIter]
      rw [ih, h1]

theorem deleteSpace_unauthorized_immutable_witness :
    stAlice.spaces.find? (fun s => s.id == "sp9") = some ⟨"sp9", "s", 10, 10, "alice", none⟩ ∧
    (deleteSpace stAlice "bob" "sp9" = (.unauthorized, stAlice) ∧
      ∀ n : Nat, deleteSpaceIter "bob" "sp9" n stAlice = stAlice) :=
  ⟨by decide,
   deleteSpace_unauthorized_immutable stAlice "sp9" "bob"
     ⟨"sp9", "s", 10, 10, "alice", none⟩ (by decide) (by decide)⟩

/-- C10: the bulk-metadata read consults no caller identity: for any two
callers (including the anonymous one) the returned `(userId, avatarImageRef)`
list over the same store and raw ids parameter is identical. -/
theorem getBulkUserMetadata_caller_independent (st : Store) (idsParam : Option String)
    (caller₁ caller₂ : Option String) :
    getBulkUserMetadata st idsParam caller₁ = getBulkUserMetadata st idsParam caller₂ := rfl

end V2M
